import Mathlib

/-!
Shallow embedding of the rizz SQLite query builder (src/src/lib.rs) and the
SQL-generating functions emitted by its `Table` derive macro
(src/rizz_macros/src/lib.rs), together with proofs of the specification's
claims about clause assembly, predicate composition, parameter alignment,
and migration DDL generation.
-/

namespace Rizz

/-- Opaque model of a Rust `f64` payload: a 64-bit pattern. No claim inspects
the numeric value, only moves it around. -/
structure F64 where
  bits : Nat
deriving DecidableEq, Repr

/-- `Value` from src/src/lib.rs lines 761-769: tagged union of a raw SQL
literal fragment and the four bindable scalar kinds. Blob bytes are modelled
as naturals. -/
inductive Value where
  | lit (s : String)
  | text (s : String)
  | blob (b : List Nat)
  | real (r : F64)
  | integer (i : Int)
deriving DecidableEq, Repr

/-- Whether a `Value` is the `Lit` variant. -/
def Value.isLit : Value → Bool
  | .lit _ => true
  | _ => false

/-- The caller-side input types of the generic `impl From<..> for Value`
conversions (src/src/lib.rs lines 771-805): `String`, `&str`, `Arc<str>`,
`i64`, `f64`, `Vec<u8>`. -/
inductive CallerScalar where
  | ofString (s : String)
  | ofStrRef (s : String)
  | ofArcStr (s : String)
  | ofI64 (i : Int)
  | ofF64 (r : F64)
  | ofBytes (b : List Nat)
deriving DecidableEq, Repr

/-- The `Into<Value>` conversion path: each `From` impl from
src/src/lib.rs lines 771-805. -/
def CallerScalar.intoValue : CallerScalar → Value
  | .ofString s => .text s
  | .ofStrRef s => .text s
  | .ofArcStr s => .text s
  | .ofI64 i => .integer i
  | .ofF64 r => .real r
  | .ofBytes b => .blob b

/-- `WherePart` from src/src/lib.rs lines 749-752: a rendered boolean SQL
fragment plus its ordered bound-value list. -/
structure WherePart where
  clause : String
  values : List Value
deriving DecidableEq, Repr

/-- `eq` from src/src/lib.rs lines 754-759: `format!("{} = ?", left.to_column())`
with value list `vec![right.into()]`. `left` is the qualified column text. -/
def eq (left : String) (right : Value) : WherePart :=
  { clause := left ++ " = ?", values := [right] }

/-- `and` from src/src/lib.rs lines 727-736:
`format!("({} and {})", left.clause, right.clause)` with
values = left.values ++ right.values. -/
def and (left : WherePart) (right : WherePart) : WherePart :=
  { clause := "(" ++ left.clause ++ " and " ++ right.clause ++ ")"
    values := left.values ++ right.values }

/-- `or` from src/src/lib.rs lines 738-747:
`format!("({} or {})", left.clause, right.clause)` with
values = left.values ++ right.values. -/
def or (left : WherePart) (right : WherePart) : WherePart :=
  { clause := "(" ++ left.clause ++ " or " ++ right.clause ++ ")"
    values := left.values ++ right.values }

/-- Syntax trees of predicate fragments built through the public
constructors `eq`/`and`/`or`, with `eq` right operands restricted to the
generic conversion path (the `WherePart` fields are private in the source,
so these are the only ways a caller obtains a fragment). -/
inductive Pred where
  | eq (col : String) (v : CallerScalar)
  | and (l r : Pred)
  | or (l r : Pred)
deriving DecidableEq, Repr

/-- Rendering a predicate tree by the source's constructors. -/
def Pred.render : Pred → WherePart
  | .eq col v => Rizz.eq col v.intoValue
  | .and l r => Rizz.and l.render r.render
  | .or l r => Rizz.or l.render r.render

/-- The qualified column texts occurring in a predicate tree. -/
def Pred.cols : Pred → List String
  | .eq col _ => [col]
  | .and l r => l.cols ++ r.cols
  | .or l r => l.cols ++ r.cols

/-- The slice of the `Table` trait the query builder consumes
(src/src/lib.rs lines 814-821): the table name and the precomputed
insert/update/delete fragments. -/
structure TableD where
  table_name : String
  insert_sql : String
  update_sql : String
  delete_sql : String
deriving DecidableEq, Repr

/-- The `Row` trait (src/src/lib.rs lines 807-811): ordered bound values
plus precomputed insert value-clause and update set-clause fragments. -/
structure RowD where
  insert_sql : String
  set_sql : String
  values : List Value
deriving DecidableEq, Repr

/-- `Query` from src/src/lib.rs lines 663-677, without the connection
handle: one optional text slot per clause plus the accumulated parameter
vector. -/
structure Query where
  selectSql : Option String
  fromSql : Option String
  whereSql : Option String
  limitSql : Option String
  insertIntoSql : Option String
  setSql : Option String
  deleteSql : Option String
  valuesSql : Option String
  returningSql : Option String
  valuesList : Option (List Value)
  updateSql : Option String
deriving DecidableEq, Repr

/-- `Query::new` (src/src/lib.rs lines 500-515): every slot empty. -/
def Query.new : Query :=
  { selectSql := none, fromSql := none, whereSql := none, limitSql := none
    insertIntoSql := none, setSql := none, deleteSql := none
    valuesSql := none, returningSql := none, valuesList := none
    updateSql := none }

/-- `Query::select` (lines 517-521): `format!("select {}", columns)`. -/
def Query.select (q : Query) (columns : String) : Query :=
  { q with selectSql := some ("select " ++ columns) }

/-- `Query::from` (lines 523-527): `format!("from {}", table.table_name())`. -/
def Query.fromTable (q : Query) (table : TableD) : Query :=
  { q with fromSql := some ("from " ++ table.table_name) }

/-- `Query::r#where` (lines 529-539): sets the where text only when the slot
is still empty; extends the value vector (or seeds it) on every call. -/
def Query.whereQ (q : Query) (part : WherePart) : Query :=
  { q with
    whereSql :=
      match q.whereSql with
      | none => some ("where " ++ part.clause)
      | some w => some w
    valuesList :=
      match q.valuesList with
      | some values => some (values ++ part.values)
      | none => some part.values }

/-- `Query::limit` (lines 541-544): `format!("limit {}", limit)`. -/
def Query.limit (q : Query) (n : Nat) : Query :=
  { q with limitSql := some ("limit " ++ toString n) }

/-- `Query::insert` (lines 591-594): stores the table's insert fragment. -/
def Query.insert (q : Query) (table : TableD) : Query :=
  { q with insertIntoSql := some table.insert_sql }

/-- `Query::values` (lines 596-600): stores the row's value-clause fragment
and REPLACES the parameter vector with the row's values. -/
def Query.valuesRow (q : Query) (row : RowD) : Query :=
  { q with valuesSql := some row.insert_sql, valuesList := some row.values }

/-- `Query::update` (lines 602-605): stores the table's update fragment. -/
def Query.update (q : Query) (table : TableD) : Query :=
  { q with updateSql := some table.update_sql }

/-- `Query::set` (lines 607-611): stores the row's set-clause fragment and
REPLACES the parameter vector with the row's values. -/
def Query.set (q : Query) (row : RowD) : Query :=
  { q with setSql := some row.set_sql, valuesList := some row.values }

/-- `Query::delete` (lines 613-616): stores the table's delete fragment. -/
def Query.delete (q : Query) (table : TableD) : Query :=
  { q with deleteSql := some table.delete_sql }

/-- Rust's `Vec::<String>::join(sep)`: empty for the empty list, otherwise
the head followed by `sep ++ element` for each further element. -/
def joinSep (sep : String) : List String → String
  | [] => ""
  | a :: as => as.foldl (fun acc x => acc ++ sep ++ x) a

/-- `Query::to_sql` (lines 550-569): the present clause slots, in the fixed
order select, from, insert_into, values, update, set, delete, where,
returning, limit, joined by single spaces. -/
def Query.to_sql (q : Query) : String :=
  joinSep " "
    (([q.selectSql, q.fromSql, q.insertIntoSql, q.valuesSql, q.updateSql,
       q.setSql, q.deleteSql, q.whereSql, q.returningSql,
       q.limitSql]).filterMap id)

/-- The ten clause slots of a builder state, as a tuple (the data `to_sql`
renders; excludes the parameter vector). -/
def Query.slots (q : Query) :
    Option String × Option String × Option String × Option String ×
    Option String × Option String × Option String × Option String ×
    Option String × Option String :=
  (q.selectSql, q.fromSql, q.insertIntoSql, q.valuesSql, q.updateSql,
   q.setSql, q.deleteSql, q.whereSql, q.returningSql, q.limitSql)

/-- One builder call, with its argument. -/
inductive Call where
  | select (columns : String)
  | fromTable (t : TableD)
  | whereC (p : WherePart)
  | limit (n : Nat)
  | insert (t : TableD)
  | valuesRow (r : RowD)
  | update (t : TableD)
  | set (r : RowD)
  | delete (t : TableD)
deriving Repr

/-- Dispatch one builder call on a state. -/
def Query.applyCall (q : Query) : Call → Query
  | .select c => q.select c
  | .fromTable t => q.fromTable t
  | .whereC p => q.whereQ p
  | .limit n => q.limit n
  | .insert t => q.insert t
  | .valuesRow r => q.valuesRow r
  | .update t => q.update t
  | .set r => q.set r
  | .delete t => q.delete t

/-- Run a sequence of builder calls from the empty state. -/
def run (calls : List Call) : Query :=
  calls.foldl Query.applyCall Query.new

/-- `Error` from src/src/lib.rs lines 823-835. -/
inductive Error where
  | ConnectionClosed
  | Close (s : String)
  | Database (s : String)
  | MissingFrom
  | InsertError (s : String)
deriving DecidableEq, Repr

/-- The first step of `Query::returning` (src/src/lib.rs line 622):
`format!("returning {}", columns)` stored into the returning slot. -/
def Query.returningSet (q : Query) (columns : String) : Query :=
  { q with returningSql := some ("returning " ++ columns) }

/-- `Query::returning` (src/src/lib.rs lines 618-630) with the external
database modelled by the row list it yields for the rendered statement:
appends the `returning` clause, renders, and returns the first yielded row,
or `Error::InsertError` carrying the rendered SQL when no row was yielded. -/
def Query.returningResult {ρ : Type} (q : Query) (columns : String)
    (dbRows : List ρ) : Except Error ρ :=
  let sql := (q.returningSet columns).to_sql
  match dbRows with
  | [] => .error (.InsertError ("failed to insert " ++ sql))
  | row :: _ => .ok row

/-- Rust `str::replace("\"", "")`: delete every double-quote character. -/
def stripQuotes (s : String) : String :=
  String.mk (s.data.filter (fun c => c ≠ '"'))

/-- Rust `str::split(sep)` for a single-character pattern: the (non-empty)
list of segments between occurrences of `sep`; adjacent separators and
separators at either end yield empty segments. -/
def splitOnChar (sep : Char) : List Char → List (List Char)
  | [] => [[]]
  | c :: rest =>
    let r := splitOnChar sep rest
    if c = sep then [] :: r
    else
      match r with
      | [] => [[c]]
      | w :: ws => (c :: w) :: ws

/-- Rust `str::split(sep)` on strings, single-character pattern. -/
def splitChar (sep : Char) (s : String) : List String :=
  (splitOnChar sep s.data).map String.mk

/-- `column_name.split(".").nth(1)` followed by `replace("\"", "")`
(src/rizz_macros/src/lib.rs lines 134, 144, 153): the second dot-separated
segment with quotes removed, `none` when the name has no `.` separator
(where the source panics with "column name must be qualified"). -/
def unqualify (name : String) : Option String :=
  ((splitChar '.' name).get? 1).map stripQuotes

/-- `c.split(" ").nth(0)`: the first space-separated word of a stored
column definition, which is the column's unqualified name. -/
def columnDefName (c : String) : Option String :=
  (splitChar ' ' c).get? 0

/-- The `create_table_sql` body generated by the derive macro
(src/rizz_macros/src/lib.rs lines 113-116, 129-131):
`create table if not exists <quoted table> (<defs comma-joined>);`. -/
def create_table_sql (table_name : String) (column_defs : List String) :
    String :=
  "create table if not exists " ++ table_name ++ " (" ++
    joinSep "," column_defs ++ ");"

/-- The `add_column_sql` body generated by the derive macro
(src/rizz_macros/src/lib.rs lines 133-141). `none` models the two panics:
unqualified column name, and a name matching no stored definition. -/
def add_column_sql (table_name : String) (column_defs : List String)
    (column_name : String) : Option String :=
  match unqualify column_name with
  | none => none
  | some unqualified_column_name =>
    match column_defs.find?
        (fun c => columnDefName c = some unqualified_column_name) with
    | some column_def =>
        some ("alter table " ++ table_name ++ " add column " ++
          column_def ++ ";")
    | none => none

/-- `column_names.iter().map(|name| name.split(".").nth(1).expect(..).replace("\"", ""))`
(src/rizz_macros/src/lib.rs lines 144, 153): unqualify every name,
`none` as soon as one lacks the `.` separator (the source panics there). -/
def mapUnqualify : List String → Option (List String)
  | [] => some []
  | n :: ns =>
    match unqualify n, mapUnqualify ns with
    | some b, some bs => some (b :: bs)
    | _, _ => none

/-- The `create_index_sql` body generated by the derive macro
(src/rizz_macros/src/lib.rs lines 143-150). `none` models the panic on an
unqualified column name. -/
def create_index_sql (table_name : String) (unique : Bool)
    (column_names : List String) : Option String :=
  match mapUnqualify column_names with
  | none => none
  | some bare_column_names =>
    let bare_table_name := stripQuotes table_name
    let index_name :=
      bare_table_name ++ "_" ++ joinSep "_" bare_column_names
    some ("create" ++ (if unique then " unique " else " ") ++ "index " ++
      index_name ++ " on " ++ bare_table_name ++ " (" ++
      joinSep "," bare_column_names ++ ");")

/-- The `drop_index_sql` body generated by the derive macro
(src/rizz_macros/src/lib.rs lines 152-159). `none` models the panic on an
unqualified column name. -/
def drop_index_sql (table_name : String) (column_names : List String) :
    Option String :=
  match mapUnqualify column_names with
  | none => none
  | some bare_column_names =>
    let bare_table_name := stripQuotes table_name
    let index_name :=
      bare_table_name ++ "_" ++ joinSep "_" bare_column_names
    some ("drop index " ++ index_name ++ ";")

/-- The index name both `create_index_sql` and `drop_index_sql` compute
inline: `<bare table>_<bare col1>_..._<bare colN>`. -/
def derivedIndexName (table_name : String) (bare_column_names : List String) :
    String :=
  stripQuotes table_name ++ "_" ++ joinSep "_" bare_column_names

/-- Count of `?` placeholder characters in a rendered fragment. -/
def countQ (s : String) : Nat :=
  s.data.count '?'

/-- A builder call whose data reaches the query only through the public
constructors: predicates via `eq`/`and`/`or` with conversion-path operands,
and row values produced by the conversion path. -/
inductive CallC where
  | select (columns : String)
  | fromTable (t : TableD)
  | whereC (p : Pred)
  | limit (n : Nat)
  | insert (t : TableD)
  | valuesRow (ins s : String) (scalars : List CallerScalar)
  | update (t : TableD)
  | set (ins s : String) (scalars : List CallerScalar)
  | delete (t : TableD)
deriving Repr

/-- Modelled from the spec: the `Row` derive macro (absent from src/) —
"values() → ordered Value list matching that same column order" where each
bound value enters through the scalar conversion path of §4.1. -/
def rowOfScalars (ins s : String) (scalars : List CallerScalar) : RowD :=
  { insert_sql := ins, set_sql := s
    values := scalars.map CallerScalar.intoValue }

/-- Interpret a conversion-path call as a raw builder call. -/
def CallC.toCall : CallC → Call
  | .select c => .select c
  | .fromTable t => .fromTable t
  | .whereC p => .whereC p.render
  | .limit n => .limit n
  | .insert t => .insert t
  | .valuesRow ins s scalars => .valuesRow (rowOfScalars ins s scalars)
  | .update t => .update t
  | .set ins s scalars => .set (rowOfScalars ins s scalars)
  | .delete t => .delete t

/-! ## Helper lemmas -/

/-- `to_sql` depends only on the ten clause slots, not on the parameter
vector or on how the state was reached. -/
lemma Query.to_sql_eq_of_slots_eq {q1 q2 : Query} (h : q1.slots = q2.slots) :
    q1.to_sql = q2.to_sql := by
  simp only [Query.slots, Prod.mk.injEq] at h
  obtain ⟨h1, h2, h3, h4, h5, h6, h7, h8, h9, h10⟩ := h
  simp [Query.to_sql, h1, h2, h3, h4, h5, h6, h7, h8, h9, h10]

/-- Every rendered predicate fragment carries at least one bound value. -/
lemma Pred.render_values_ne_nil (p : Pred) : p.render.values ≠ [] := by
  induction p with
  | eq col v => simp [Pred.render, Rizz.eq]
  | and l r ihl ihr => simp [Pred.render, Rizz.and, ihl]
  | or l r ihl ihr => simp [Pred.render, Rizz.or, ihl]

/-- `?`-counting distributes over string concatenation. -/
lemma countQ_append (a b : String) : countQ (a ++ b) = countQ a + countQ b := by
  simp [countQ, String.data_append, List.count_append]

/-! ## Claims -/

/-- C1: For every sequence of builder calls, the rendered SQL string is the
space-joined concatenation of exactly the clause fragments that are present,
in the fixed order select, from, insert_into, values, update, set, delete,
where, returning, limit, with absent slots omitted; and any two call
sequences that leave the same texts in the same slots render identical
final SQL, regardless of the order in which the builder methods were
invoked. -/
theorem rendered_sql_fixed_clause_order :
    (∀ calls : List Call,
      (run calls).to_sql =
        joinSep " "
          (([(run calls).selectSql, (run calls).fromSql,
             (run calls).insertIntoSql, (run calls).valuesSql,
             (run calls).updateSql, (run calls).setSql,
             (run calls).deleteSql, (run calls).whereSql,
             (run calls).returningSql, (run calls).limitSql]).filterMap id)) ∧
    (∀ calls1 calls2 : List Call,
      (run calls1).slots = (run calls2).slots →
        (run calls1).to_sql = (run calls2).to_sql) := by
  constructor
  · intro calls
    rfl
  · intro calls1 calls2 h
    exact Query.to_sql_eq_of_slots_eq h

/-- Witness for C1: `select→from→where` and a construction that sets the
`where` data first leave identical slots, and the theorem yields identical
final SQL. -/
theorem rendered_sql_fixed_clause_order_witness :
    (run [Call.select "*",
          Call.fromTable ⟨"\"accounts\"", "", "", ""⟩,
          Call.whereC (Pred.eq "\"accounts\".\"id\""
            (CallerScalar.ofI64 1)).render]).slots =
      (run [Call.whereC (Pred.eq "\"accounts\".\"id\""
              (CallerScalar.ofI64 1)).render,
            Call.select "*",
            Call.fromTable ⟨"\"accounts\"", "", "", ""⟩]).slots ∧
    (run [Call.select "*",
          Call.fromTable ⟨"\"accounts\"", "", "", ""⟩,
          Call.whereC (Pred.eq "\"accounts\".\"id\""
            (CallerScalar.ofI64 1)).render]).to_sql =
      (run [Call.whereC (Pred.eq "\"accounts\".\"id\""
              (CallerScalar.ofI64 1)).render,
            Call.select "*",
            Call.fromTable ⟨"\"accounts\"", "", "", ""⟩]).to_sql :=
  ⟨by rfl, rendered_sql_fixed_clause_order.2 _ _ (by rfl)⟩

/-- C3: the first `where` call sets the where-clause text to
`where <fragment clause>`; a later `where` call leaves the clause text
unchanged; every `where` call (first or later) appends the fragment's bound
values to the accumulated parameter vector (`none` standing for the empty
accumulator). -/
theorem where_first_call_sets_clause_every_call_appends_values
    (q : Query) (part : WherePart) :
    (q.whereQ part).whereSql =
      (match q.whereSql with
       | none => some ("where " ++ part.clause)
       | some w => some w) ∧
    (q.whereQ part).valuesList =
      some (q.valuesList.getD [] ++ part.values) := by
  refine ⟨rfl, ?_⟩
  unfold Query.whereQ
  cases q.valuesList <;> simp

/-- C4: for all predicate fragments L and R, `and(L,R)` renders the clause
`(<L.clause> and <R.clause>)` and `or(L,R)` renders
`(<L.clause> or <R.clause>)`, each wrapped in exactly one parenthesis pair,
and each with value list `L.values ++ R.values`; quantifying over all
fragments covers arbitrary nesting depth. -/
theorem and_or_wrap_and_concat_values (L R : WherePart) :
    (Rizz.and L R).clause = "(" ++ L.clause ++ " and " ++ R.clause ++ ")" ∧
    (Rizz.and L R).values = L.values ++ R.values ∧
    (Rizz.or L R).clause = "(" ++ L.clause ++ " or " ++ R.clause ++ ")" ∧
    (Rizz.or L R).values = L.values ++ R.values :=
  ⟨rfl, rfl, rfl, rfl⟩

/-- C5: `values(row)` and `set(row)` replace the entire accumulated
parameter vector with the row's values; consequently `where` before
`values` and `values` before `where` yield the same SQL text but different
final parameter vectors (predicate fragments always carry at least one
value). -/
theorem values_set_replace_parameter_vector
    (q : Query) (row : RowD) (t : TableD) (p : Pred) :
    (q.valuesRow row).valuesList = some row.values ∧
    (q.set row).valuesList = some row.values ∧
    (((Query.new.insert t).whereQ p.render).valuesRow row).to_sql =
      (((Query.new.insert t).valuesRow row).whereQ p.render).to_sql ∧
    (((Query.new.insert t).whereQ p.render).valuesRow row).valuesList ≠
      (((Query.new.insert t).valuesRow row).whereQ p.render).valuesList := by
  refine ⟨rfl, rfl, rfl, ?_⟩
  simp only [Query.valuesRow, Query.whereQ, Query.insert, Query.new]
  intro h
  simp only [Option.some.injEq] at h
  have hlen := congrArg List.length h
  simp only [List.length_append] at hlen
  have : p.render.values.length = 0 := by omega
  exact Pred.render_values_ne_nil p (List.length_eq_zero.mp this)

/-- The conversion path never produces the `Lit` variant. -/
lemma intoValue_not_lit (s : CallerScalar) : s.intoValue.isLit = false := by
  cases s <;> rfl

/-- Every value of a rendered predicate fragment comes through the
conversion path, hence is bindable (not `Lit`). -/
lemma Pred.render_values_not_lit (p : Pred) :
    ∀ v ∈ p.render.values, v.isLit = false := by
  induction p with
  | eq col v =>
    intro w hw
    simp [Pred.render, Rizz.eq] at hw
    exact hw ▸ intoValue_not_lit v
  | and l r ihl ihr =>
    intro w hw
    simp only [Pred.render, Rizz.and, List.mem_append] at hw
    rcases hw with hw | hw
    · exact ihl w hw
    · exact ihr w hw
  | or l r ihl ihr =>
    intro w hw
    simp only [Pred.render, Rizz.or, List.mem_append] at hw
    rcases hw with hw | hw
    · exact ihl w hw
    · exact ihr w hw

/-- Running conversion-path calls preserves "no `Lit` in the accumulated
parameter vector". -/
lemma foldl_applyCall_not_lit (calls : List CallC) (q : Query)
    (hq : ∀ v ∈ q.valuesList.getD [], v.isLit = false) :
    ∀ v ∈ ((calls.map CallC.toCall).foldl Query.applyCall
        q).valuesList.getD [], v.isLit = false := by
  induction calls generalizing q with
  | nil => exact hq
  | cons c cs ih =>
    simp only [List.map_cons, List.foldl_cons]
    apply ih
    cases c with
    | whereC p =>
      intro v hv
      simp only [CallC.toCall, Query.applyCall, Query.whereQ] at hv
      rcases h : q.valuesList with _ | vs <;> simp only [h] at hv hq <;>
        simp only [Option.getD_some, List.mem_append] at hv ⊢
      · exact Pred.render_values_not_lit p v hv
      · rcases hv with hv | hv
        · exact hq v hv
        · exact Pred.render_values_not_lit p v hv
    | valuesRow ins s scalars =>
      intro v hv
      simp only [CallC.toCall, Query.applyCall, Query.valuesRow,
        rowOfScalars, Option.getD_some, List.mem_map] at hv
      obtain ⟨w, _, hw⟩ := hv
      exact hw ▸ intoValue_not_lit w
    | set ins s scalars =>
      intro v hv
      simp only [CallC.toCall, Query.applyCall, Query.set,
        rowOfScalars, Option.getD_some, List.mem_map] at hv
      obtain ⟨w, _, hw⟩ := hv
      exact hw ▸ intoValue_not_lit w
    | select cols => exact hq
    | fromTable t => exact hq
    | limit n => exact hq
    | insert t => exact hq
    | update t => exact hq
    | delete t => exact hq

/-- C6: the generic into-`Value` conversion path can only produce the
bindable variants Text, Blob, Real, Integer — never `Lit` — and for every
statement assembled from conversion-path builder calls, no `Lit` value is
ever collected into the accumulated parameter vector. -/
theorem only_bindable_values_reach_params :
    (∀ s : CallerScalar, s.intoValue.isLit = false) ∧
    (∀ (calls : List CallC) (v : Value),
      v ∈ (run (calls.map CallC.toCall)).valuesList.getD [] →
        v.isLit = false) := by
  refine ⟨intoValue_not_lit, ?_⟩
  intro calls v hv
  exact foldl_applyCall_not_lit calls Query.new (by simp [Query.new]) v hv

/-- Witness for C6: a concrete query whose parameter vector contains the
converted integer 1, which is not a `Lit`. -/
theorem only_bindable_values_reach_params_witness :
    Value.integer 1 ∈
      (run ([CallC.whereC (Pred.eq "\"accounts\".\"id\""
        (CallerScalar.ofI64 1))].map CallC.toCall)).valuesList.getD [] ∧
    (Value.integer 1).isLit = false :=
  ⟨by decide,
   only_bindable_values_reach_params.2
     [CallC.whereC (Pred.eq "\"accounts\".\"id\"" (CallerScalar.ofI64 1))]
     (Value.integer 1) (by decide)⟩

/-- C2: for every predicate fragment built from eq/and/or whose qualified
column texts contain no `?`, the number of `?` placeholders in the rendered
clause equals the length of its bound-value list; and `eq(col, v)` renders
exactly one `?` with the one-element value list holding v's converted
form. -/
theorem placeholder_count_eq_values_length :
    (∀ p : Pred, (∀ c ∈ p.cols, countQ c = 0) →
      countQ p.render.clause = p.render.values.length) ∧
    (∀ (col : String) (v : CallerScalar), countQ col = 0 →
      countQ (Pred.eq col v).render.clause = 1 ∧
      (Pred.eq col v).render.values = [v.intoValue]) := by
  have heq : ∀ (col : String) (v : CallerScalar), countQ col = 0 →
      countQ (Pred.eq col v).render.clause = 1 := by
    intro col v hc
    have : countQ (col ++ " = ?") = countQ col + countQ " = ?" :=
      countQ_append col " = ?"
    simp only [Pred.render, Rizz.eq]
    rw [this, hc]
    decide
  constructor
  · intro p hp
    induction p with
    | eq col v =>
      have hc : countQ col = 0 := hp col (by simp [Pred.cols])
      simpa [Pred.render, Rizz.eq] using heq col v hc
    | and l r ihl ihr =>
      have hl := ihl (fun c hc => hp c (by simp [Pred.cols, hc]))
      have hr := ihr (fun c hc => hp c (by simp [Pred.cols, hc]))
      have h1 : countQ "(" = 0 := by decide
      have h2 : countQ " and " = 0 := by decide
      have h3 : countQ ")" = 0 := by decide
      simp only [Pred.render, Rizz.and, countQ_append, hl, hr,
        List.length_append, h1, h2, h3]
      omega
    | or l r ihl ihr =>
      have hl := ihl (fun c hc => hp c (by simp [Pred.cols, hc]))
      have hr := ihr (fun c hc => hp c (by simp [Pred.cols, hc]))
      have h1 : countQ "(" = 0 := by decide
      have h2 : countQ " or " = 0 := by decide
      have h3 : countQ ")" = 0 := by decide
      simp only [Pred.render, Rizz.or, countQ_append, hl, hr,
        List.length_append, h1, h2, h3]
      omega
  · intro col v hc
    exact ⟨heq col v hc, rfl⟩

/-- Witness for C2: a concrete conjunction has two `?` and two values, and
a concrete `eq` has exactly one `?` and the one converted value. -/
theorem placeholder_count_eq_values_length_witness :
    (∀ c ∈ (Pred.and (Pred.eq "\"t\".\"a\"" (CallerScalar.ofI64 1))
        (Pred.eq "\"t\".\"b\"" (CallerScalar.ofStrRef "x"))).cols,
      countQ c = 0) ∧
    countQ (Pred.and (Pred.eq "\"t\".\"a\"" (CallerScalar.ofI64 1))
        (Pred.eq "\"t\".\"b\"" (CallerScalar.ofStrRef "x"))).render.clause =
      (Pred.and (Pred.eq "\"t\".\"a\"" (CallerScalar.ofI64 1))
        (Pred.eq "\"t\".\"b\"" (CallerScalar.ofStrRef "x"))).render.values.length ∧
    countQ (Pred.eq "\"t\".\"a\"" (CallerScalar.ofI64 1)).render.clause = 1 ∧
    (Pred.eq "\"t\".\"a\"" (CallerScalar.ofI64 1)).render.values =
      [(CallerScalar.ofI64 1).intoValue] :=
  ⟨by decide,
   placeholder_count_eq_values_length.1
     (Pred.and (Pred.eq "\"t\".\"a\"" (CallerScalar.ofI64 1))
       (Pred.eq "\"t\".\"b\"" (CallerScalar.ofStrRef "x"))) (by decide),
   (placeholder_count_eq_values_length.2 "\"t\".\"a\""
     (CallerScalar.ofI64 1) (by decide)).1,
   (placeholder_count_eq_values_length.2 "\"t\".\"a\""
     (CallerScalar.ofI64 1) (by decide)).2⟩

/-- C7: for every table name and list of qualified column names,
`create_index_sql` and `drop_index_sql` derive the identical index name
`<bare_table>_<col1>_..._<colN>` (underscore-joined unqualified, unquoted
column names in the order given), as pure functions of their inputs. -/
theorem create_drop_index_share_derived_name
    (table_name : String) (unique : Bool)
    (column_names bares : List String)
    (h : mapUnqualify column_names = some bares) :
    create_index_sql table_name unique column_names =
      some ("create" ++ (if unique then " unique " else " ") ++ "index " ++
        derivedIndexName table_name bares ++ " on " ++
        stripQuotes table_name ++ " (" ++ joinSep "," bares ++ ");") ∧
    drop_index_sql table_name column_names =
      some ("drop index " ++ derivedIndexName table_name bares ++ ";") := by
  constructor
  · unfold create_index_sql derivedIndexName
    rw [h]
  · unfold drop_index_sql derivedIndexName
    rw [h]

/-- Witness for C7: for table `"accounts"` and columns
`"accounts"."id", "accounts"."email"`, both DDL statements use the derived
name `accounts_id_email`. -/
theorem create_drop_index_share_derived_name_witness :
    (mapUnqualify ["\"accounts\".\"id\"", "\"accounts\".\"email\""] =
      some ["id", "email"]) ∧
    create_index_sql "\"accounts\"" true
        ["\"accounts\".\"id\"", "\"accounts\".\"email\""] =
      some ("create" ++ (if true then " unique " else " ") ++ "index " ++
        derivedIndexName "\"accounts\"" ["id", "email"] ++ " on " ++
        stripQuotes "\"accounts\"" ++ " (" ++
        joinSep "," ["id", "email"] ++ ");") ∧
    drop_index_sql "\"accounts\""
        ["\"accounts\".\"id\"", "\"accounts\".\"email\""] =
      some ("drop index " ++
        derivedIndexName "\"accounts\"" ["id", "email"] ++ ";") :=
  ⟨by decide,
   (create_drop_index_share_derived_name "\"accounts\"" true
     ["\"accounts\".\"id\"", "\"accounts\".\"email\""] ["id", "email"]
     (by decide)).1,
   (create_drop_index_share_derived_name "\"accounts\"" true
     ["\"accounts\".\"id\"", "\"accounts\".\"email\""] ["id", "email"]
     (by decide)).2⟩

/-- C8: for a qualified column name whose unqualified part names no column
in the table's metadata, `add_column_sql` never silently succeeds (the
source panics, modelled as `none`); when a stored definition with that name
exists, it returns `alter table <table> add column <definition>;`. -/
theorem add_column_sql_fails_on_unknown_column
    (table_name : String) (column_defs : List String)
    (column_name u : String)
    (hu : unqualify column_name = some u) :
    ((∀ c ∈ column_defs, ¬ columnDefName c = some u) →
      add_column_sql table_name column_defs column_name = none) ∧
    (∀ d, column_defs.find? (fun c => columnDefName c = some u) = some d →
      add_column_sql table_name column_defs column_name =
        some ("alter table " ++ table_name ++ " add column " ++ d ++ ";")) := by
  constructor
  · intro habs
    have hnone :
        column_defs.find? (fun c => columnDefName c = some u) = none := by
      rw [List.find?_eq_none]
      intro x hx
      simpa using habs x hx
    simp [add_column_sql, hu, hnone]
  · intro d hd
    simp [add_column_sql, hu, hd]

/-- Witness for C8: on metadata `["id integer primary key"]`, the unknown
column `"accounts"."nope"` yields the failure and `"accounts"."id"` yields
the alter-table statement. -/
theorem add_column_sql_fails_on_unknown_column_witness :
    (unqualify "\"accounts\".\"nope\"" = some "nope") ∧
    add_column_sql "\"accounts\"" ["id integer primary key"]
      "\"accounts\".\"nope\"" = none ∧
    add_column_sql "\"accounts\"" ["id integer primary key"]
        "\"accounts\".\"id\"" =
      some ("alter table " ++ "\"accounts\"" ++ " add column " ++
        "id integer primary key" ++ ";") :=
  ⟨by decide,
   (add_column_sql_fails_on_unknown_column "\"accounts\""
     ["id integer primary key"] "\"accounts\".\"nope\"" "nope"
     (by decide)).1 (by decide),
   (add_column_sql_fails_on_unknown_column "\"accounts\""
     ["id integer primary key"] "\"accounts\".\"id\"" "id"
     (by decide)).2 "id integer primary key" (by decide)⟩

/-- C9: when the database yields zero result rows, `returning` returns a
recoverable `Error::InsertError` value (never an abort, never an empty
success); when at least one row is yielded, it returns that first row. -/
theorem returning_zero_rows_is_insert_error {ρ : Type} (q : Query)
    (columns : String) (dbRows : List ρ) :
    (dbRows = [] →
      q.returningResult columns dbRows =
        .error (.InsertError ("failed to insert " ++
          (q.returningSet columns).to_sql))) ∧
    (∀ (r : ρ) (rest : List ρ), dbRows = r :: rest →
      q.returningResult columns dbRows = .ok r) := by
  constructor
  · intro h
    subst h
    rfl
  · intro r rest h
    subst h
    rfl

/-- Witness for C9: on the empty row list the result is the insert error;
on `[5]` it is `ok 5`. -/
theorem returning_zero_rows_is_insert_error_witness :
    (Query.new.returningResult "*" ([] : List Nat) =
      .error (.InsertError ("failed to insert " ++
        (Query.new.returningSet "*").to_sql))) ∧
    Query.new.returningResult "*" [(5 : Nat)] = .ok 5 :=
  ⟨(returning_zero_rows_is_insert_error Query.new "*" ([] : List Nat)).1 rfl,
   (returning_zero_rows_is_insert_error Query.new "*" [(5 : Nat)]).2 5 []
     rfl⟩

/-- The quoted table identifier produced by the derive macro
(src/rizz_macros/src/lib.rs line 28): `format!(r#""{}""#, table_str)`. -/
def quoteIdent (t : String) : String := "\"" ++ t ++ "\""

/-- A clause slot that is either absent or free of `;`. -/
def noSemiOpt : Option String → Prop
  | none => True
  | some s => ';' ∉ s.data

/-- All ten clause slots are free of `;`. -/
def Query.slotsNoSemi (q : Query) : Prop :=
  noSemiOpt q.selectSql ∧ noSemiOpt q.fromSql ∧ noSemiOpt q.insertIntoSql ∧
  noSemiOpt q.valuesSql ∧ noSemiOpt q.updateSql ∧ noSemiOpt q.setSql ∧
  noSemiOpt q.deleteSql ∧ noSemiOpt q.whereSql ∧ noSemiOpt q.returningSql ∧
  noSemiOpt q.limitSql

/-- The string inputs of one builder call contain no `;`. -/
def Call.inputsNoSemi : Call → Prop
  | .select c => ';' ∉ c.data
  | .fromTable t => ';' ∉ t.table_name.data
  | .whereC p => ';' ∉ p.clause.data
  | .limit _ => True
  | .insert t => ';' ∉ t.insert_sql.data
  | .valuesRow r => ';' ∉ r.insert_sql.data
  | .update t => ';' ∉ t.update_sql.data
  | .set r => ';' ∉ r.set_sql.data
  | .delete t => ';' ∉ t.delete_sql.data

/-- A character absent from both halves is absent from their
concatenation. -/
lemma no_mem_append {c : Char} {a b : String} (ha : c ∉ a.data)
    (hb : c ∉ b.data) : c ∉ (a ++ b).data := by
  simp only [String.data_append, List.mem_append]
  push_neg
  exact ⟨ha, hb⟩

/-- Decimal digit characters are never `;`. -/
lemma digitChar_ne_semicolon (m : Nat) : Nat.digitChar m ≠ ';' := by
  rcases Nat.lt_or_ge m 16 with h | h
  · interval_cases m <;> decide
  · have h0 : m ≠ 0 := by omega
    have h1 : m ≠ 1 := by omega
    have h2 : m ≠ 2 := by omega
    have h3 : m ≠ 3 := by omega
    have h4 : m ≠ 4 := by omega
    have h5 : m ≠ 5 := by omega
    have h6 : m ≠ 6 := by omega
    have h7 : m ≠ 7 := by omega
    have h8 : m ≠ 8 := by omega
    have h9 : m ≠ 9 := by omega
    have h10 : m ≠ 10 := by omega
    have h11 : m ≠ 11 := by omega
    have h12 : m ≠ 12 := by omega
    have h13 : m ≠ 13 := by omega
    have h14 : m ≠ 14 := by omega
    have h15 : m ≠ 15 := by omega
    simp [Nat.digitChar, h0, h1, h2, h3, h4, h5, h6, h7, h8, h9, h10,
      h11, h12, h13, h14, h15]

/-- The digit accumulator of `Nat.repr` never introduces `;`. -/
lemma toDigitsCore_no_semicolon (b : Nat) :
    ∀ (fuel n : Nat) (ds : List Char), (∀ c ∈ ds, c ≠ ';') →
      ∀ c ∈ Nat.toDigitsCore b fuel n ds, c ≠ ';' := by
  intro fuel
  induction fuel with
  | zero =>
    intro n ds hds
    simpa [Nat.toDigitsCore] using hds
  | succ fuel ih =>
    intro n ds hds
    have hcons : ∀ c ∈ Nat.digitChar (n % b) :: ds, c ≠ ';' := by
      intro c hc
      rcases List.mem_cons.mp hc with h | h
      · exact h ▸ digitChar_ne_semicolon _
      · exact hds c h
    rw [show Nat.toDigitsCore b (fuel + 1) n ds =
      (if n / b = 0 then Nat.digitChar (n % b) :: ds
       else Nat.toDigitsCore b fuel (n / b)
         (Nat.digitChar (n % b) :: ds)) from rfl]
    by_cases hn : n / b = 0
    · rw [if_pos hn]
      exact hcons
    · rw [if_neg hn]
      exact ih _ _ hcons

/-- Rendered decimal numbers contain no `;`. -/
lemma natToString_no_semicolon (n : Nat) : ';' ∉ (toString n).data := by
  intro h
  exact toDigitsCore_no_semicolon 10 (n + 1) n [] (by simp) ';' h rfl

/-- Folding the join step keeps a character out when it is absent from the
accumulator, the separator and every element. -/
lemma foldl_joinSep_no_mem {c : Char} {sep : String} (hsep : c ∉ sep.data) :
    ∀ (xs : List String) (acc : String), c ∉ acc.data →
      (∀ s ∈ xs, c ∉ s.data) →
      c ∉ (xs.foldl (fun acc x => acc ++ sep ++ x) acc).data := by
  intro xs
  induction xs with
  | nil =>
    intro acc hacc _
    simpa using hacc
  | cons x xs ih =>
    intro acc hacc hxs
    simp only [List.foldl_cons]
    exact ih _ (no_mem_append (no_mem_append hacc hsep)
        (hxs x (List.mem_cons_self x xs)))
      (fun s hs => hxs s (List.mem_cons_of_mem x hs))

/-- A character absent from the separator and every element is absent from
the join. -/
lemma joinSep_no_mem {c : Char} {sep : String} (hsep : c ∉ sep.data)
    (l : List String) (hl : ∀ s ∈ l, c ∉ s.data) :
    c ∉ (joinSep sep l).data := by
  cases l with
  | nil =>
    intro h
    exact List.not_mem_nil c h
  | cons a as =>
    exact foldl_joinSep_no_mem hsep as a (hl a (by simp))
      (fun s hs => hl s (by simp [hs]))

/-- Quote-stripping leaves no double-quote character behind. -/
lemma stripQuotes_no_quote (s : String) : '"' ∉ (stripQuotes s).data := by
  simp [stripQuotes, List.mem_filter]

/-- Every bare name produced by `mapUnqualify` is quote-stripped. -/
lemma unqualify_eq_stripQuotes {n u : String} (h : unqualify n = some u) :
    ∃ s, u = stripQuotes s := by
  unfold unqualify at h
  rcases hg : (splitChar '.' n).get? 1 with _ | seg <;> rw [hg] at h
  · cases h
  · simp only [Option.map_some', Option.some.injEq] at h
    exact ⟨seg, h.symm⟩

/-- Members of a successful `mapUnqualify` result are quote-stripped. -/
lemma mapUnqualify_mem :
    ∀ (cols bares : List String), mapUnqualify cols = some bares →
      ∀ b ∈ bares, ∃ s, b = stripQuotes s := by
  intro cols
  induction cols with
  | nil =>
    intro bares h b hb
    simp only [mapUnqualify, Option.some.injEq] at h
    subst h
    simp at hb
  | cons n ns ih =>
    intro bares h b hb
    rcases hn : unqualify n with _ | u
    · simp only [mapUnqualify, hn] at h
      exact Option.noConfusion h
    · rcases hm : mapUnqualify ns with _ | bs
      · simp only [mapUnqualify, hn, hm] at h
        exact Option.noConfusion h
      · simp only [mapUnqualify, hn, hm, Option.some.injEq] at h
        subst h
        rcases List.mem_cons.mp hb with hb | hb
        · exact hb ▸ unqualify_eq_stripQuotes hn
        · exact ih bs hm b hb

/-- No bare name from `mapUnqualify` contains a double quote. -/
lemma bares_no_quote {cols bares : List String}
    (h : mapUnqualify cols = some bares) : ∀ b ∈ bares, '"' ∉ b.data := by
  intro b hb
  obtain ⟨s, hs⟩ := mapUnqualify_mem cols bares h b hb
  exact hs ▸ stripQuotes_no_quote s

/-- One builder call with `;`-free inputs keeps all clause slots
`;`-free. -/
lemma applyCall_slotsNoSemi {q : Query} {c : Call}
    (hq : q.slotsNoSemi) (hc : c.inputsNoSemi) :
    (q.applyCall c).slotsNoSemi := by
  obtain ⟨h1, h2, h3, h4, h5, h6, h7, h8, h9, h10⟩ := hq
  cases c with
  | select s =>
    exact ⟨no_mem_append (by decide) hc, h2, h3, h4, h5, h6, h7, h8, h9, h10⟩
  | fromTable t =>
    exact ⟨h1, no_mem_append (by decide) hc, h3, h4, h5, h6, h7, h8, h9, h10⟩
  | whereC p =>
    refine ⟨h1, h2, h3, h4, h5, h6, h7, ?_, h9, h10⟩
    show noSemiOpt (match q.whereSql with
      | none => some ("where " ++ p.clause)
      | some w => some w)
    rcases hw : q.whereSql with _ | w
    · exact no_mem_append (by decide) hc
    · rw [hw] at h8
      exact h8
  | limit n =>
    exact ⟨h1, h2, h3, h4, h5, h6, h7, h8, h9,
      no_mem_append (by decide) (natToString_no_semicolon n)⟩
  | insert t =>
    exact ⟨h1, h2, hc, h4, h5, h6, h7, h8, h9, h10⟩
  | valuesRow r =>
    exact ⟨h1, h2, h3, hc, h5, h6, h7, h8, h9, h10⟩
  | update t =>
    exact ⟨h1, h2, h3, h4, hc, h6, h7, h8, h9, h10⟩
  | set r =>
    exact ⟨h1, h2, h3, h4, h5, hc, h7, h8, h9, h10⟩
  | delete t =>
    exact ⟨h1, h2, h3, h4, h5, h6, hc, h8, h9, h10⟩

/-- Folding `;`-free calls from a `;`-free state stays `;`-free. -/
lemma foldl_slotsNoSemi :
    ∀ (calls : List Call) (q : Query), q.slotsNoSemi →
      (∀ c ∈ calls, c.inputsNoSemi) →
      (calls.foldl Query.applyCall q).slotsNoSemi := by
  intro calls
  induction calls with
  | nil =>
    intro q hq _
    exact hq
  | cons c cs ih =>
    intro q hq hcs
    simp only [List.foldl_cons]
    exact ih _ (applyCall_slotsNoSemi hq (hcs c (by simp)))
      (fun d hd => hcs d (by simp [hd]))

/-- A query whose clause slots are `;`-free renders `;`-free SQL. -/
lemma to_sql_no_semi {q : Query} (h : q.slotsNoSemi) :
    ';' ∉ q.to_sql.data := by
  obtain ⟨h1, h2, h3, h4, h5, h6, h7, h8, h9, h10⟩ := h
  unfold Query.to_sql
  apply joinSep_no_mem (by decide)
  intro s hs
  rw [List.mem_filterMap] at hs
  obtain ⟨a, ha, hid⟩ := hs
  simp only [id_eq] at hid
  subst hid
  simp only [List.mem_cons, List.not_mem_nil, or_false] at ha
  rcases ha with h | h | h | h | h | h | h | h | h | h
  · rw [← h] at h1; exact h1
  · rw [← h] at h2; exact h2
  · rw [← h] at h3; exact h3
  · rw [← h] at h4; exact h4
  · rw [← h] at h5; exact h5
  · rw [← h] at h6; exact h6
  · rw [← h] at h7; exact h7
  · rw [← h] at h8; exact h8
  · rw [← h] at h9; exact h9
  · rw [← h] at h10; exact h10

/-- C10 counterexample: on fully quoted inputs, the generated create-index
and drop-index DDL contains no double-quote character at all — table,
column and index identifiers are rendered bare — contradicting "all
generated SQL uses double-quoted identifiers ... including create index
and drop index". -/
theorem index_ddl_unquoted_counterexample :
    create_index_sql "\"accounts\"" true ["\"accounts\".\"id\""] =
      some "create unique index accounts_id on accounts (id);" ∧
    drop_index_sql "\"accounts\"" ["\"accounts\".\"id\""] =
      some "drop index accounts_id;" ∧
    '"' ∉ "create unique index accounts_id on accounts (id);".data ∧
    '"' ∉ "drop index accounts_id;".data :=
  ⟨by decide, by decide, by decide, by decide⟩

/-- C10 (amended): generated SQL uses `?` positional placeholders for bound
values (an `eq` fragment adds exactly one `?`); create-table DDL embeds the
double-quoted table identifier verbatim; standalone DDL statements
terminate with `;` while a query composed from `;`-free fragments renders
with no `;`; but create index and drop index strip double quotes and
render bare unquoted identifiers rather than double-quoted ones. -/
theorem sql_output_conventions :
    (∀ (col : String) (v : Value),
      countQ (Rizz.eq col v).clause = countQ col + 1) ∧
    (∀ (t : String) (defs : List String), ∃ pre post,
      (create_table_sql (quoteIdent t) defs).data =
        pre ++ (quoteIdent t).data ++ post) ∧
    (∀ (t : String) (defs : List String), ∃ pre,
      (create_table_sql t defs).data = pre ++ [';']) ∧
    (∀ (tn : String) (defs : List String) (cn out : String),
      add_column_sql tn defs cn = some out →
        ∃ pre, out.data = pre ++ [';']) ∧
    (∀ (tn : String) (u : Bool) (cols : List String) (out : String),
      create_index_sql tn u cols = some out →
        (∃ pre, out.data = pre ++ [';']) ∧ '"' ∉ out.data) ∧
    (∀ (tn : String) (cols : List String) (out : String),
      drop_index_sql tn cols = some out →
        (∃ pre, out.data = pre ++ [';']) ∧ '"' ∉ out.data) ∧
    (∀ calls : List Call, (∀ c ∈ calls, c.inputsNoSemi) →
      ';' ∉ (run calls).to_sql.data) := by
  refine ⟨?_, ?_, ?_, ?_, ?_, ?_, ?_⟩
  · intro col v
    have h1 : countQ " = ?" = 1 := by decide
    simp [Rizz.eq, countQ_append, h1]
  · intro t defs
    refine ⟨"create table if not exists ".data,
      (" (" ++ joinSep "," defs ++ ");").data, ?_⟩
    simp [create_table_sql, quoteIdent, String.data_append,
      List.append_assoc]
  · intro t defs
    refine ⟨("create table if not exists " ++ t ++ " (" ++
      joinSep "," defs ++ ")").data, ?_⟩
    have hp : (");" : String).data = (")" : String).data ++ [';'] := by
      decide
    simp [create_table_sql, String.data_append, List.append_assoc, hp]
  · intro tn defs cn out h
    rcases hu : unqualify cn with _ | u
    · simp only [add_column_sql, hu] at h
      exact Option.noConfusion h
    · rcases hf : defs.find? (fun c => columnDefName c = some u) with _ | d
      · simp only [add_column_sql, hu, hf] at h
        exact Option.noConfusion h
      · simp only [add_column_sql, hu, hf, Option.some.injEq] at h
        subst h
        refine ⟨("alter table " ++ tn ++ " add column " ++ d).data, ?_⟩
        have hs : (";" : String).data = [';'] := by decide
        simp [String.data_append, List.append_assoc, hs]
  · intro tn u cols out h
    rcases hm : mapUnqualify cols with _ | bares
    · simp only [create_index_sql, hm] at h
      exact Option.noConfusion h
    · simp only [create_index_sql, hm, Option.some.injEq] at h
      subst h
      constructor
      · refine ⟨("create" ++ (if u then " unique " else " ") ++ "index " ++
          (stripQuotes tn ++ "_" ++ joinSep "_" bares) ++ " on " ++
          stripQuotes tn ++ " (" ++ joinSep "," bares ++ ")").data, ?_⟩
        have hp : (");" : String).data = (")" : String).data ++ [';'] := by
          decide
        simp [String.data_append, List.append_assoc, hp]
      · refine no_mem_append (no_mem_append (no_mem_append (no_mem_append
          (no_mem_append (no_mem_append (no_mem_append (no_mem_append
            ?_ ?_) ?_) ?_) ?_) ?_) ?_) ?_) ?_
        · decide
        · rcases u <;> decide
        · decide
        · exact no_mem_append
            (no_mem_append (stripQuotes_no_quote tn) (by decide))
            (joinSep_no_mem (by decide) bares (bares_no_quote hm))
        · decide
        · exact stripQuotes_no_quote tn
        · decide
        · exact joinSep_no_mem (by decide) bares (bares_no_quote hm)
        · decide
  · intro tn cols out h
    rcases hm : mapUnqualify cols with _ | bares
    · simp only [drop_index_sql, hm] at h
      exact Option.noConfusion h
    · simp only [drop_index_sql, hm, Option.some.injEq] at h
      subst h
      constructor
      · refine ⟨("drop index " ++
          (stripQuotes tn ++ "_" ++ joinSep "_" bares)).data, ?_⟩
        have hs : (";" : String).data = [';'] := by decide
        simp [String.data_append, List.append_assoc, hs]
      · refine no_mem_append (no_mem_append ?_ ?_) ?_
        · decide
        · exact no_mem_append
            (no_mem_append (stripQuotes_no_quote tn) (by decide))
            (joinSep_no_mem (by decide) bares (bares_no_quote hm))
        · decide
  · intro calls hcalls
    exact to_sql_no_semi (foldl_slotsNoSemi calls Query.new
      ⟨trivial, trivial, trivial, trivial, trivial, trivial, trivial,
        trivial, trivial, trivial⟩ hcalls)

/-- Witness for the amended C10: concrete DDL outputs end in `;` and the
index DDL is quote-free, while a concrete composed query has no `;`. -/
theorem sql_output_conventions_witness :
    (add_column_sql "\"accounts\"" ["id integer"] "\"accounts\".\"id\"" =
      some "alter table \"accounts\" add column id integer;") ∧
    (∃ pre, ("alter table \"accounts\" add column id integer;" :
      String).data = pre ++ [';']) ∧
    (create_index_sql "\"accounts\"" false ["\"accounts\".\"id\""] =
      some "create index accounts_id on accounts (id);") ∧
    ((∃ pre, ("create index accounts_id on accounts (id);" : String).data =
        pre ++ [';']) ∧
      '"' ∉ ("create index accounts_id on accounts (id);" : String).data) ∧
    (drop_index_sql "\"accounts\"" ["\"accounts\".\"id\""] =
      some "drop index accounts_id;") ∧
    ((∃ pre, ("drop index accounts_id;" : String).data = pre ++ [';']) ∧
      '"' ∉ ("drop index accounts_id;" : String).data) ∧
    ';' ∉ (run [Call.select "*",
      Call.fromTable ⟨"\"accounts\"", "", "", ""⟩]).to_sql.data := by
  have hmem : ∀ c ∈ [Call.select "*",
      Call.fromTable ⟨"\"accounts\"", "", "", ""⟩], Call.inputsNoSemi c := by
    intro c hc
    rcases List.mem_cons.mp hc with h | hc2
    · subst h
      show ';' ∉ "*".data
      decide
    · rcases List.mem_cons.mp hc2 with h | hc3
      · subst h
        show ';' ∉ "\"accounts\"".data
        decide
      · exact absurd hc3 (List.not_mem_nil c)
  exact ⟨by decide,
    sql_output_conventions.2.2.2.1 "\"accounts\"" ["id integer"]
      "\"accounts\".\"id\"" "alter table \"accounts\" add column id integer;"
      (by decide),
    by decide,
    sql_output_conventions.2.2.2.2.1 "\"accounts\"" false
      ["\"accounts\".\"id\""] "create index accounts_id on accounts (id);"
      (by decide),
    by decide,
    sql_output_conventions.2.2.2.2.2.1 "\"accounts\""
      ["\"accounts\".\"id\""] "drop index accounts_id;" (by decide),
    sql_output_conventions.2.2.2.2.2.2 [Call.select "*",
      Call.fromTable ⟨"\"accounts\"", "", "", ""⟩] hmem⟩

end Rizz
